import Mathlib

/-!
Verification of the debt-payoff simulation and consolidation-eligibility engine of
`backend/app/services/analysis_service.py` and `backend/app/services/azure_ai_service.py`.

Shallow embedding conventions:
* pandas DataFrames of loan / card rows become `List Loan` / `List Card`; the
  vectorized column operations of the source become per-element maps over these lists.
* Python floats become `ℚ` (the source formulas are exact rational arithmetic on the
  inputs; float rounding is not modelled).
* The `1e-6` "active" threshold of the source is the rational `eps = 1/1000000`.
* Python `while` loops guarded by `months < 1000` become structural recursion on the
  decreasing measure `1000 - months`.
-/

namespace DebtEngine

/-- The residue threshold `1e-6` used throughout `analysis_service.py` to treat an
instrument as paid off. -/
def eps : ℚ := 1 / 1000000

/-- A loan row, with the columns of the loans DataFrame that the analysis engine reads
(`principal`, `annual_rate_pct`, `remaining_term_months`, `days_past_due`,
`product_type`); identifier and collateral columns are never read by the engine and
are omitted. -/
structure Loan where
  principal : ℚ
  annual_rate_pct : ℚ
  remaining_term_months : ℤ
  days_past_due : ℤ
  product_type : String
  deriving Repr, DecidableEq

/-- A card row, with the columns of the cards DataFrame that the analysis engine reads. -/
structure Card where
  balance : ℚ
  annual_rate_pct : ℚ
  min_payment_pct : ℚ
  days_past_due : ℤ
  deriving Repr, DecidableEq

/-- A consolidation offer (schema `ConsolidationOffer`), restricted to the fields the
engine reads. -/
structure ConsolidationOffer where
  offer_id : String
  product_types_eligible : List String
  new_rate_pct : ℚ
  max_term_months : ℤ
  max_consolidated_balance : ℚ
  conditions : String
  deriving Repr, DecidableEq

/-- Result of `simulate_minimum_payments` / `simulate_optimized_payments`
(schema `PaymentSimulationResult`): months to payoff and total interest paid. -/
structure PaymentSimulationResult where
  months : ℕ
  total_interest : ℚ
  deriving Repr, DecidableEq

/-- Result of `simulate_consolidation` (schema `ConsolidationSimulationResult`). -/
structure ConsolidationSimulationResult where
  offer_id : String
  months : ℕ
  total_interest : ℚ
  new_rate_pct : ℚ
  max_term_months : ℤ
  consolidated_amount : ℚ
  deriving Repr, DecidableEq

/-- Embedding of `AnalysisService._pmt` (analysis_service.py lines 38–64), per element
of the pandas Series: the source applies the three masked cases to each row
independently, in the priority order `n_months <= 0`, then `r == 0`, then the annuity
formula. -/
def pmt (principal annual_rate_pct : ℚ) (n_months : ℤ) : ℚ :=
  let r := annual_rate_pct / 100 / 12
  if n_months ≤ 0 then principal
  else if r = 0 then principal / (n_months : ℚ)
  else principal * (r * (1 + r) ^ n_months.toNat) / ((1 + r) ^ n_months.toNat - 1)

/-! ### Minimum-payment simulator (lines 208–312) -/

/-- Monthly rate from an annual percentage: `annual_rate_pct / 100 / 12`, as written at
every accrual site of the source. -/
def monthlyRate (annual_rate_pct : ℚ) : ℚ := annual_rate_pct / 100 / 12

/-- A loan is "active" when `principal > 1e-6` (the mask used throughout the source). -/
def loanActive (l : Loan) : Bool := eps < l.principal

/-- A card is "active" when `balance > 1e-6`. -/
def cardActive (c : Card) : Bool := eps < c.balance

/-- One month's interest on an active loan: `principal * annual_rate_pct / 100 / 12`. -/
def loanInterest (l : Loan) : ℚ := l.principal * monthlyRate l.annual_rate_pct

/-- One month's interest on an active card: `balance * annual_rate_pct / 100 / 12`. -/
def cardInterest (c : Card) : ℚ := c.balance * monthlyRate c.annual_rate_pct

/-- The card minimum payment `max(balance * (min_payment_pct / 100), interest + 1.0)`
(analysis_service.py lines 292–296, and identically at lines 379–383 and 697–702). -/
def cardMinPayment (c : Card) : ℚ :=
  max (c.balance * (c.min_payment_pct / 100)) (cardInterest c + 1)

/-- The per-loan monthly update of `simulate_minimum_payments` (lines 246–278):
interest accrues, the scheduled `_pmt` payment (term clipped to ≥ 1) is capped at the
payoff amount, the principal is reduced by `payment − interest` and clamped at zero,
and the remaining term decrements with a floor of 1. Inactive rows are untouched. -/
def minStepLoan (l : Loan) : Loan :=
  if loanActive l then
    let interest := loanInterest l
    let payment := pmt l.principal l.annual_rate_pct (max 1 l.remaining_term_months)
    let payoff := l.principal + interest
    let actual_payment := min payment payoff
    let principal_reduction := actual_payment - interest
    { l with
      principal := max 0 (l.principal - principal_reduction),
      remaining_term_months := max 1 (l.remaining_term_months - 1) }
  else l

/-- The per-card monthly update of `simulate_minimum_payments` (lines 280–307):
interest accrues, the minimum payment is capped at the payoff amount, and the balance
is reduced by `payment − interest`, clamped at zero. Inactive rows are untouched. -/
def minStepCard (c : Card) : Card :=
  if cardActive c then
    let interest := cardInterest c
    let payoff := c.balance + interest
    let actual_payment := min (cardMinPayment c) payoff
    let principal_reduction := actual_payment - interest
    { c with balance := max 0 (c.balance - principal_reduction) }
  else c

/-- Sum of the month's interest over active loans (`interest.sum()` at line 254). -/
def loansInterest (loans : List Loan) : ℚ :=
  (loans.map fun l => if loanActive l then loanInterest l else 0).sum

/-- Sum of the month's interest over active cards (`interest.sum()` at line 289). -/
def cardsInterest (cards : List Card) : ℚ :=
  (cards.map fun c => if cardActive c then cardInterest c else 0).sum

/-- The `done()` predicate (lines 236–240, identical at 424–428 and 651–656): every
loan principal and card balance is ≤ 1e-6 (empty frames count as done). -/
def simDone (loans : List Loan) (cards : List Card) : Bool :=
  loans.all (fun l => ! loanActive l) && cards.all (fun c => ! cardActive c)

/-- The `while not done() and months < 1000` loop of `simulate_minimum_payments`
(lines 242–307), carrying the month counter and accumulated interest. -/
def simMinGo (loans : List Loan) (cards : List Card) (months : ℕ) (total_interest : ℚ) :
    ℕ × ℚ :=
  if h : simDone loans cards = true ∨ 1000 ≤ months then (months, total_interest)
  else
    simMinGo (loans.map minStepLoan) (cards.map minStepCard) (months + 1)
      (total_interest + loansInterest loans + cardsInterest cards)
  termination_by 1000 - months
  decreasing_by simp only [not_or, not_le] at h; omega

/-- Embedding of `simulate_minimum_payments` (lines 208–312), as a function of the
customer's loan and card rows. -/
def simulate_minimum_payments (loans : List Loan) (cards : List Card) :
    PaymentSimulationResult :=
  let r := simMinGo loans cards 0 0
  { months := r.1, total_interest := r.2 }

/-! ### Avalanche ("optimized") simulator (lines 314–504) -/

/-- The derived monthly budget (lines 326–330, identically at 567–571):
`max(0.0, income − essential − income * variability)` with
`variability = income_variability_pct / 100`. -/
def derivedBudget (monthly_income_avg essential_expenses_avg income_variability_pct : ℚ) :
    ℚ :=
  max 0 (monthly_income_avg - essential_expenses_avg -
    monthly_income_avg * (income_variability_pct / 100))

/-- The scheduled loan payment used by `calculate_minimum_payments` (lines 364–369):
`_pmt` on the current principal and rate with the remaining term clipped to ≥ 1. -/
def loanMinPayment (l : Loan) : ℚ :=
  pmt l.principal l.annual_rate_pct (max 1 l.remaining_term_months)

/-- The total of `calculate_minimum_payments` (lines 355–386): scheduled `_pmt`
payments over active loans plus card minimum payments over active cards.  (The source
also returns the two per-row payment Series; the application loops at lines 457–485
recompute the same values row by row, which the step functions below inline.) -/
def calculate_minimum_payments (loans : List Loan) (cards : List Card) : ℚ :=
  ((loans.filter loanActive).map loanMinPayment).sum +
    ((cards.filter cardActive).map cardMinPayment).sum

/-- The per-loan minimum-payment application of `simulate_optimized_payments`
(lines 457–471): same arithmetic as the minimum simulator, row by row. -/
def optStepLoan (l : Loan) : Loan :=
  if loanActive l then
    let monthly_rate := monthlyRate l.annual_rate_pct
    let interest := l.principal * monthly_rate
    let payoff := l.principal + interest
    let actual_payment := min (loanMinPayment l) payoff
    let principal_reduction := actual_payment - interest
    { l with
      principal := max 0 (l.principal - principal_reduction),
      remaining_term_months := max 1 (l.remaining_term_months - 1) }
  else l

/-- The per-card minimum-payment application of `simulate_optimized_payments`
(lines 474–485). -/
def optStepCard (c : Card) : Card :=
  if cardActive c then
    let monthly_rate := monthlyRate c.annual_rate_pct
    let interest := c.balance * monthly_rate
    let payoff := c.balance + interest
    let actual_payment := min (cardMinPayment c) payoff
    let principal_reduction := actual_payment - interest
    { c with balance := max 0 (c.balance - principal_reduction) }
  else c

/-- A reference to one debt row: which DataFrame and the row index. -/
inductive DebtRef
  | loan (idx : ℕ)
  | card (idx : ℕ)
  deriving Repr, DecidableEq

/-- The sort key of one entry of the `debts` list built by `get_priority_debt`
(lines 388–422).  The Python entry is `((tier, -rate), 'loan' | 'card', idx, amount)`;
tuple comparison reaches the amount only if two entries agree on tier, rate, type
string and index, which cannot happen (indices are unique per type), so the key below
drops the amount.  `type_tag` is 0 for cards and 1 for loans because `'card' < 'loan'`
in the string ordering Python uses on the third component. -/
structure DebtKey where
  tier : ℕ
  neg_rate : ℚ
  type_tag : ℕ
  idx : ℕ
  deriving Repr, DecidableEq

/-- Strict lexicographic order on debt keys, i.e. Python tuple `<`. -/
def keyLt (a b : DebtKey) : Prop :=
  a.tier < b.tier ∨ (a.tier = b.tier ∧ (a.neg_rate < b.neg_rate ∨ (a.neg_rate = b.neg_rate ∧
    (a.type_tag < b.type_tag ∨ (a.type_tag = b.type_tag ∧ a.idx < b.idx)))))

instance : DecidablePred fun p : DebtKey × DebtKey => keyLt p.1 p.2 := by
  intro p; unfold keyLt; infer_instance

instance (a b : DebtKey) : Decidable (keyLt a b) := by unfold keyLt; infer_instance

/-- The priority tier of lines 397–399 / 410–412: 0 when `cure_dpd_first` is set and
the row is delinquent, else 1. -/
def dpdTier (cure_dpd_first : Bool) (days_past_due : ℤ) : ℕ :=
  if cure_dpd_first ∧ 0 < days_past_due then 0 else 1

/-- The `debts` list of `get_priority_debt` (lines 390–416): one keyed entry per
active loan (in row order), then one per active card. -/
def debtEntries (cure_dpd_first : Bool) (loans : List Loan) (cards : List Card) :
    List (DebtKey × DebtRef × ℚ) :=
  (loans.enum.filterMap fun p =>
    if loanActive p.2 then
      some (⟨dpdTier cure_dpd_first p.2.days_past_due, -p.2.annual_rate_pct, 1, p.1⟩,
        DebtRef.loan p.1, p.2.principal)
    else none) ++
  (cards.enum.filterMap fun p =>
    if cardActive p.2 then
      some (⟨dpdTier cure_dpd_first p.2.days_past_due, -p.2.annual_rate_pct, 0, p.1⟩,
        DebtRef.card p.1, p.2.balance)
    else none)

/-- `get_priority_debt` (lines 388–422): `debts.sort(); return debts[0]` — the unique
key-minimal entry (all keys are distinct), or `none` when no debt is active. -/
def get_priority_debt (cure_dpd_first : Bool) (loans : List Loan) (cards : List Card) :
    Option (DebtKey × DebtRef × ℚ) :=
  (debtEntries cure_dpd_first loans cards).foldl
    (fun best e =>
      match best with
      | none => some e
      | some b => if keyLt e.1 b.1 then some e else some b)
    none

/-- The extra payment applied to the selected loan (lines 492–495):
`min(extra, principal)` off the principal, clamped at zero. -/
def applyExtraLoan (extra : ℚ) (l : Loan) : Loan :=
  { l with principal := max 0 (l.principal - min extra l.principal) }

/-- The extra payment applied to the selected card (lines 496–499). -/
def applyExtraCard (extra : ℚ) (c : Card) : Card :=
  { c with balance := max 0 (c.balance - min extra c.balance) }

/-- The avalanche extra-payment step (lines 488–499): when `extra > 1e-6` and some
debt is active, the single priority debt receives `min(extra, balance)`; otherwise
nothing changes. -/
def applyExtra (extra : ℚ) (cure_dpd_first : Bool) (loans : List Loan)
    (cards : List Card) : List Loan × List Card :=
  if eps < extra then
    match get_priority_debt cure_dpd_first loans cards with
    | some (_, DebtRef.loan i, _) => (List.modify (applyExtraLoan extra) i loans, cards)
    | some (_, DebtRef.card i, _) => (loans, List.modify (applyExtraCard extra) i cards)
    | none => (loans, cards)
  else (loans, cards)

/-- The `while not done() and months < 1000` loop of `simulate_optimized_payments`
(lines 430–499): accrue interest, compute the month's minimum payments and the extra
budget, apply every minimum payment, then route the extra to the priority debt. -/
def simOptGo (budget : ℚ) (cure_dpd_first : Bool) (loans : List Loan)
    (cards : List Card) (months : ℕ) (total_interest : ℚ) : ℕ × ℚ :=
  if h : simDone loans cards = true ∨ 1000 ≤ months then (months, total_interest)
  else
    let ti := total_interest + loansInterest loans + cardsInterest cards
    let mins_total := calculate_minimum_payments loans cards
    let extra := max 0 (budget - mins_total)
    let p := applyExtra extra cure_dpd_first (loans.map optStepLoan) (cards.map optStepCard)
    simOptGo budget cure_dpd_first p.1 p.2 (months + 1) ti
  termination_by 1000 - months
  decreasing_by simp only [not_or, not_le] at h; omega

/-- Embedding of `simulate_optimized_payments` (lines 314–504), as a function of the
customer's cashflow row, the `cure_dpd_first` flag and the loan and card rows. -/
def simulate_optimized_payments (monthly_income_avg essential_expenses_avg
    income_variability_pct : ℚ) (cure_dpd_first : Bool) (loans : List Loan)
    (cards : List Card) : PaymentSimulationResult :=
  let budget := derivedBudget monthly_income_avg essential_expenses_avg
    income_variability_pct
  let r := simOptGo budget cure_dpd_first loans cards 0 0
  { months := r.1, total_interest := r.2 }

/-! ### Consolidation eligibility (lines 66–136 and 506–553) and the Azure AI
service (azure_ai_service.py) -/

/-- The maximum-term eligibility test of line 114:
`offer.max_term_months < loans_df['remaining_term_months'].max()`.  On an empty loans
DataFrame the pandas `max()` is NaN and the comparison is False, so the check
passes. -/
def maxTermExceeded (loans : List Loan) (o : ConsolidationOffer) : Bool :=
  match (loans.map Loan.remaining_term_months).max? with
  | some m => o.max_term_months < m
  | none => false

/-- The eligible-debt total of `_check_basic_eligibility` (lines 88–99): principals of
loans whose product type is in the offer's eligible set, plus all card balances when
`"card"` is eligible. -/
def eligibleDebt (loans : List Loan) (cards : List Card) (o : ConsolidationOffer) : ℚ :=
  ((loans.filter fun l => l.product_type ∈ o.product_types_eligible).map
      Loan.principal).sum +
    (if ¬ cards.isEmpty ∧ "card" ∈ o.product_types_eligible then
      (cards.map Card.balance).sum
    else 0)

/-- Embedding of `_check_basic_eligibility` (lines 83–119): eligible debt must be
positive, must not exceed the offer's max consolidated balance, and the offer's max
term must not be below the longest remaining loan term. -/
def check_basic_eligibility (loans : List Loan) (cards : List Card)
    (o : ConsolidationOffer) : Bool :=
  if eligibleDebt loans cards o ≤ 0 then false
  else if o.max_consolidated_balance < eligibleDebt loans cards o then false
  else if maxTermExceeded loans o then false
  else true

/-- Python's `str.strip()`: drop leading and trailing whitespace. -/
def pyStrip (s : String) : String :=
  ⟨((s.data.dropWhile Char.isWhitespace).reverse.dropWhile Char.isWhitespace).reverse⟩

/-- Python's `str.lower()` (ASCII case folding, which is all the sentinel comparisons
of the source need). -/
def pyLower (s : String) : String := ⟨s.data.map Char.toLower⟩

/-- The non-trivial-conditions test of lines 77 and 526:
`offer.conditions and offer.conditions.strip() and offer.conditions.lower() not in
['none', 'none specified', '']`. -/
def hasRealConditions (conditions : String) : Bool :=
  conditions ≠ "" && pyStrip conditions ≠ "" &&
    decide (pyLower conditions ∉ (["none", "none specified", ""] : List String))

/-- A Python exception raised inside an offer evaluation. -/
inductive PyError
  | typeError
  deriving Repr, DecidableEq

/-- Embedding of `_check_eligibility_with_ai` (lines 66–81).  The body's first
statement, line 71, is `self._check_basic_eligibility(customer_data, offer,
credit_score)` — three arguments — but `_check_basic_eligibility` (line 83) is
declared with only the two parameters `(customer_data, offer)`.  In Python this call
raises `TypeError` before any eligibility logic runs, so on every input the method
raises instead of returning a verdict. -/
def check_eligibility_with_ai (loans : List Loan) (cards : List Card)
    (o : ConsolidationOffer) (credit_score : ℤ) : Except PyError Bool :=
  Except.error PyError.typeError

/-- The decision the body of `_check_eligibility_with_ai` (lines 70–81) encodes, as it
would execute if the call at line 71 matched `_check_basic_eligibility`'s declared
parameters (the intent stated by the method's docstring): basic checks first, the AI
verdict (`ai_verdict` stands for `_evaluate_conditions_with_ai`'s answer) only for
offers with real free-text conditions, and eligible otherwise. -/
def check_eligibility_logic (loans : List Loan) (cards : List Card)
    (o : ConsolidationOffer) (ai_verdict : Bool) : Bool :=
  if ! check_basic_eligibility loans cards o then false
  else if hasRealConditions o.conditions then ai_verdict
  else true

/-- Embedding of `get_eligible_offers` (lines 506–553): each offer is evaluated by
`_check_eligibility_with_ai`; an exception during evaluation is caught at line 537 and
the offer is skipped (`continue`); the survivors are sorted ascending by
`new_rate_pct`. -/
def get_eligible_offers (loans : List Loan) (cards : List Card)
    (offers : List ConsolidationOffer) (credit_score : ℤ) : List ConsolidationOffer :=
  let eligible := offers.filter fun o =>
    match check_eligibility_with_ai loans cards o credit_score with
    | Except.ok b => b
    | Except.error _ => false
  eligible.mergeSort fun a b => a.new_rate_pct ≤ b.new_rate_pct

/-- Embedding of `AzureAIService.evaluate_consolidation_conditions`
(azure_ai_service.py lines 40–93).  `manager_initialized` models
`self.azure_ai_manager is not None`; `customer_profile` is forwarded to the model
prompt only and never branches; `ai_verdict` models the structured LLM call of lines
82–89, `Except.error` being an exception during that call (caught at lines 91–93). -/
def evaluate_consolidation_conditions {α : Type} (manager_initialized : Bool)
    (customer_profile : α) (ai_verdict : Except Unit Bool) (o : ConsolidationOffer) :
    Bool :=
  if ! manager_initialized then true
  else if o.conditions = "" ∨ pyStrip o.conditions = "" ∨
      pyLower o.conditions ∈ (["none", "none specified"] : List String) then true
  else
    match ai_verdict with
    | Except.ok b => b
    | Except.error _ => false

/-! ### Consolidation simulator (lines 555–789) -/

/-- The per-loan minimum-payment application of the consolidation loop
(lines 713–730): the scheduled `_pmt` payment on the clipped term, principal payment
`min(min_payment − interest, principal)`, clamped at zero, term decremented from the
clipped value with a floor of 1. -/
def consStepLoan (l : Loan) : Loan :=
  if loanActive l then
    let term := max 1 l.remaining_term_months
    let min_payment := pmt l.principal l.annual_rate_pct term
    let interest := l.principal * monthlyRate l.annual_rate_pct
    let principal_payment := min (min_payment - interest) l.principal
    { l with
      principal := max 0 (l.principal - principal_payment),
      remaining_term_months := max 1 (term - 1) }
  else l

/-- The per-card minimum-payment application of the consolidation loop
(lines 733–746). -/
def consStepCard (c : Card) : Card :=
  if cardActive c then
    let interest := c.balance * monthlyRate c.annual_rate_pct
    let min_payment := max (c.balance * (c.min_payment_pct / 100)) (interest + 1)
    let principal_payment := min (min_payment - interest) c.balance
    { c with balance := max 0 (c.balance - principal_payment) }
  else c

/-- `total_min_needed` of the consolidation loop (lines 680–703): scheduled `_pmt`
payments over active loans plus card minimum payments over active cards. -/
def consMinNeeded (loans : List Loan) (cards : List Card) : ℚ :=
  ((loans.filter loanActive).map loanMinPayment).sum +
    ((cards.filter cardActive).map cardMinPayment).sum

/-- Sort key of the `all_debts` entries of lines 749–768: the Python entry is
`(rate, 'loan' | 'card', idx)` and the list is sorted with `reverse=True`, so the
chosen entry is the lexicographic maximum; `type_tag` is again 0 for `'card'` and 1
for `'loan'`. -/
structure ConsKey where
  rate : ℚ
  type_tag : ℕ
  idx : ℕ
  deriving Repr, DecidableEq

/-- Strict lexicographic order on consolidation keys. -/
def consKeyLt (a b : ConsKey) : Prop :=
  a.rate < b.rate ∨ (a.rate = b.rate ∧ (a.type_tag < b.type_tag ∨
    (a.type_tag = b.type_tag ∧ a.idx < b.idx)))

instance (a b : ConsKey) : Decidable (consKeyLt a b) := by unfold consKeyLt; infer_instance

/-- The `all_debts` list of lines 749–764: one keyed entry per active loan, then one
per active card. -/
def consDebtEntries (loans : List Loan) (cards : List Card) :
    List (ConsKey × DebtRef) :=
  (loans.enum.filterMap fun p =>
    if loanActive p.2 then some (⟨p.2.annual_rate_pct, 1, p.1⟩, DebtRef.loan p.1)
    else none) ++
  (cards.enum.filterMap fun p =>
    if cardActive p.2 then some (⟨p.2.annual_rate_pct, 0, p.1⟩, DebtRef.card p.1)
    else none)

/-- `all_debts.sort(reverse=True); all_debts[0]` (lines 766–769): the unique
key-maximal entry, or `none` when no debt is active. -/
def consPriorityDebt (loans : List Loan) (cards : List Card) :
    Option (ConsKey × DebtRef) :=
  (consDebtEntries loans cards).foldl
    (fun best e =>
      match best with
      | none => some e
      | some b => if consKeyLt b.1 e.1 then some e else some b)
    none

/-- The consolidation extra-payment step (lines 749–780): when the leftover budget
exceeds 1e-6 and some debt is active, the highest-rate debt receives
`min(available_budget, balance)` (the arithmetic of lines 771–780 is the same
`applyExtraLoan` / `applyExtraCard` as the avalanche step). -/
def applyConsExtra (available_budget : ℚ) (loans : List Loan) (cards : List Card) :
    List Loan × List Card :=
  if eps < available_budget then
    match consPriorityDebt loans cards with
    | some (_, DebtRef.loan i) =>
        (List.modify (applyExtraLoan available_budget) i loans, cards)
    | some (_, DebtRef.card i) =>
        (loans, List.modify (applyExtraCard available_budget) i cards)
    | none => (loans, cards)
  else (loans, cards)

/-- The `while not done() and months < 1000` loop of `simulate_consolidation`
(lines 658–780): accrue the month's interest, compute `total_min_needed`, and break
immediately when the budget cannot cover it; otherwise apply every minimum payment and
route the leftover budget (the source decrements `available_budget` by each row's
`min_payment` inside the update loops, whose net effect is `budget −
total_min_needed`) to the highest-rate debt. -/
def simConsGo (budget : ℚ) (loans : List Loan) (cards : List Card) (months : ℕ)
    (total_interest : ℚ) : ℕ × ℚ :=
  if h : simDone loans cards = true ∨ 1000 ≤ months then (months, total_interest)
  else
    let ti := total_interest + (loansInterest loans + cardsInterest cards)
    if budget < consMinNeeded loans cards then (months + 1, ti)
    else
      let available_budget := budget - consMinNeeded loans cards
      let p := applyConsExtra available_budget (loans.map consStepLoan)
        (cards.map consStepCard)
      simConsGo budget p.1 p.2 (months + 1) ti
  termination_by 1000 - months
  decreasing_by simp only [not_or, not_le] at h; omega

/-- The consolidated principal of lines 586–610: principals of loans whose product
type is eligible, plus all card balances when `"card"` is eligible (before the cap of
line 609). -/
def consolidationBase (o : ConsolidationOffer) (loans : List Loan)
    (cards : List Card) : ℚ :=
  ((loans.filter fun l => l.product_type ∈ o.product_types_eligible).map
      Loan.principal).sum +
    (if "card" ∈ o.product_types_eligible then (cards.map Card.balance).sum else 0)

/-- Embedding of `simulate_consolidation` (lines 555–789) from the point where the
best eligible offer `o` has been selected (line 579): partition the debts, cap the
consolidated amount at the offer's limit, synthesize the consolidation loan, run the
payoff loop, and wrap the result with the offer's terms.  (In the source the offer
comes from `get_eligible_offers`; `None` is returned at lines 575–576 and 611–612 when
there is no eligible offer or nothing to consolidate.) -/
def simulate_consolidation_with_offer (o : ConsolidationOffer)
    (monthly_income_avg essential_expenses_avg income_variability_pct : ℚ)
    (loans : List Loan) (cards : List Card) : Option ConsolidationSimulationResult :=
  let budget := derivedBudget monthly_income_avg essential_expenses_avg
    income_variability_pct
  let consolidated_amount := min (consolidationBase o loans cards)
    o.max_consolidated_balance
  if consolidated_amount ≤ 0 then none
  else
    let remaining_loans := loans.filter fun l =>
      l.product_type ∉ o.product_types_eligible
    let remaining_cards := if "card" ∈ o.product_types_eligible then [] else cards
    let new_loan : Loan :=
      ⟨consolidated_amount, o.new_rate_pct, o.max_term_months, 0, "consolidation"⟩
    let r := simConsGo budget (new_loan :: remaining_loans) remaining_cards 0 0
    some ⟨o.offer_id, r.1, r.2, o.new_rate_pct, o.max_term_months, consolidated_amount⟩

/-! ### Coupling relations used to compare the avalanche run with the
minimum-payment run (claim C2) -/

/-- Coupling between a loan row of the avalanche working copy (`a`) and the same row
of the minimum-payment working copy (`m`): valid non-negative data, identical static
fields, and — while the avalanche row is still active — a principal no larger than the
minimum-payment row's and an identical remaining term. -/
def LoanRel (a m : Loan) : Prop :=
  0 ≤ a.principal ∧ 0 ≤ m.principal ∧ a.annual_rate_pct = m.annual_rate_pct ∧
    0 ≤ m.annual_rate_pct ∧
    (loanActive a = true →
      a.principal ≤ m.principal ∧
        a.remaining_term_months = m.remaining_term_months)

/-- Coupling between a card row of the avalanche working copy and the same row of the
minimum-payment working copy. -/
def CardRel (a m : Card) : Prop :=
  0 ≤ a.balance ∧ 0 ≤ m.balance ∧ a.annual_rate_pct = m.annual_rate_pct ∧
    0 ≤ m.annual_rate_pct ∧ a.min_payment_pct = m.min_payment_pct ∧
    m.min_payment_pct ≤ 100 ∧
    (cardActive a = true → a.balance ≤ m.balance)

/-- Validity of a minimum-payment working copy: non-negative principals and rates. -/
def MinvLoans (loans : List Loan) : Prop :=
  ∀ l ∈ loans, 0 ≤ l.principal ∧ 0 ≤ l.annual_rate_pct

/-- Validity of a minimum-payment card working copy. -/
def MinvCards (cards : List Card) : Prop :=
  ∀ c ∈ cards, 0 ≤ c.balance ∧ 0 ≤ c.annual_rate_pct

/-! ## Theorems -/

/-- C4: for principal ≥ 0, annual rate ≥ 0 and an integer term, `_pmt` returns the
principal itself when term ≤ 0; principal / term when the monthly rate
(annual/100/12) is zero and term > 0; and otherwise the annuity formula
`principal * r * (1+r)^n / ((1+r)^n - 1)` — the three cases applied in that
priority order. -/
theorem pmt_three_cases (principal annual_rate_pct : ℚ) (n_months : ℤ)
    (hp : 0 ≤ principal) (hr : 0 ≤ annual_rate_pct) :
    (n_months ≤ 0 → pmt principal annual_rate_pct n_months = principal) ∧
    (¬ n_months ≤ 0 → annual_rate_pct / 100 / 12 = 0 →
      pmt principal annual_rate_pct n_months = principal / (n_months : ℚ)) ∧
    (¬ n_months ≤ 0 → annual_rate_pct / 100 / 12 ≠ 0 →
      pmt principal annual_rate_pct n_months =
        principal * (annual_rate_pct / 100 / 12 *
            (1 + annual_rate_pct / 100 / 12) ^ n_months.toNat) /
          ((1 + annual_rate_pct / 100 / 12) ^ n_months.toNat - 1)) := by
  refine ⟨fun h => ?_, fun h hz => ?_, fun h hz => ?_⟩
  · simp [pmt, h]
  · simp [pmt, h, hz]
  · simp [pmt, h, hz]

/-- Witness for `pmt_three_cases` at principal 12000, rate 0, term 12 (the zero-rate
case) — hypotheses discharged at a concrete input. -/
theorem pmt_three_cases_witness :
    ((12 : ℤ) ≤ 0 → pmt 12000 0 12 = 12000) ∧
    (¬ (12 : ℤ) ≤ 0 → (0 : ℚ) / 100 / 12 = 0 → pmt 12000 0 12 = 12000 / ((12 : ℤ) : ℚ)) ∧
    (¬ (12 : ℤ) ≤ 0 → (0 : ℚ) / 100 / 12 ≠ 0 →
      pmt 12000 0 12 =
        12000 * ((0 : ℚ) / 100 / 12 * (1 + (0 : ℚ) / 100 / 12) ^ (12 : ℤ).toNat) /
          ((1 + (0 : ℚ) / 100 / 12) ^ (12 : ℤ).toNat - 1)) :=
  pmt_three_cases 12000 0 12 (by norm_num) (by norm_num)

/-- C5: for every active card the monthly update pays
`min(max(balance*min_payment_pct/100, interest+1.0), balance+interest)` and reduces the
balance by `payment − interest`; concretely a card with balance 1000, rate 45 % and
`min_payment_pct` 1 % has interest 37.5 and its minimum payment is `interest + 1.0`
(38.5), not 1 % of the balance (10). -/
theorem card_minimum_payment_floor (c : Card) (hc : cardActive c = true) :
    (minStepCard c).balance =
      max 0 (c.balance -
        (min (cardMinPayment c) (c.balance + cardInterest c) - cardInterest c)) ∧
    cardMinPayment ⟨1000, 45, 1, 0⟩ = cardInterest ⟨1000, 45, 1, 0⟩ + 1 ∧
    cardInterest ⟨1000, 45, 1, 0⟩ = 75 / 2 ∧
    cardMinPayment ⟨1000, 45, 1, 0⟩ ≠ (1000 : ℚ) * (1 / 100) := by
  have h : (1000 : ℚ) * (1 / 100) ≤ cardInterest ⟨1000, 45, 1, 0⟩ + 1 := by
    norm_num [cardInterest, monthlyRate]
  refine ⟨by simp [minStepCard, hc], ?_, ?_, ?_⟩
  · simp only [cardMinPayment]
    exact max_eq_right h
  · norm_num [cardInterest, monthlyRate]
  · simp only [cardMinPayment]
    rw [max_eq_right h]
    norm_num [cardInterest, monthlyRate]

/-- Each of the three month loops keeps its month counter at or below 1000. -/
theorem simMinGo_months_le (loans : List Loan) (cards : List Card) (months : ℕ)
    (ti : ℚ) (h : months ≤ 1000) : (simMinGo loans cards months ti).1 ≤ 1000 := by
  unfold simMinGo
  split
  · exact h
  · next hg =>
    simp only [not_or, not_le] at hg
    exact simMinGo_months_le _ _ (months + 1) _ (by omega)
  termination_by 1000 - months
  decreasing_by simp only [not_or, not_le] at *; omega

theorem simOptGo_months_le (budget : ℚ) (cure : Bool) (loans : List Loan)
    (cards : List Card) (months : ℕ) (ti : ℚ) (h : months ≤ 1000) :
    (simOptGo budget cure loans cards months ti).1 ≤ 1000 := by
  unfold simOptGo
  split
  · exact h
  · next hg =>
    simp only [not_or, not_le] at hg
    exact simOptGo_months_le budget cure _ _ (months + 1) _ (by omega)
  termination_by 1000 - months
  decreasing_by simp only [not_or, not_le] at *; omega

theorem simConsGo_months_le (budget : ℚ) (loans : List Loan) (cards : List Card)
    (months : ℕ) (ti : ℚ) (h : months ≤ 1000) :
    (simConsGo budget loans cards months ti).1 ≤ 1000 := by
  unfold simConsGo
  split
  · exact h
  · next hg =>
    simp only [not_or, not_le] at hg
    split
    · show months + 1 ≤ 1000
      omega
    · exact simConsGo_months_le budget _ _ (months + 1) _ (by omega)
  termination_by 1000 - months
  decreasing_by simp only [not_or, not_le] at *; omega

/-- C3: every simulator — minimum-payment, avalanche and consolidation — terminates
with a months value of at most 1000 on arbitrary inputs (in particular on
never-converging ones); for the consolidation wrapper the bound holds for whatever
result it returns. -/
theorem simulators_bounded_by_1000_months (loans : List Loan) (cards : List Card)
    (income essential varPct budget : ℚ) (cure : Bool) (o : ConsolidationOffer) :
    (simulate_minimum_payments loans cards).months ≤ 1000 ∧
    (simulate_optimized_payments income essential varPct cure loans cards).months
      ≤ 1000 ∧
    (simConsGo budget loans cards 0 0).1 ≤ 1000 ∧
    ((simulate_consolidation_with_offer o income essential varPct loans
        cards).getD ⟨"", 0, 0, 0, 0, 0⟩).months ≤ 1000 := by
  refine ⟨simMinGo_months_le loans cards 0 0 (by omega),
    simOptGo_months_le (derivedBudget income essential varPct) cure loans cards 0 0
      (by omega),
    simConsGo_months_le budget loans cards 0 0 (by omega), ?_⟩
  by_cases hca :
    min (consolidationBase o loans cards) o.max_consolidated_balance ≤ 0
  · simp [simulate_consolidation_with_offer, hca]
  · simp only [simulate_consolidation_with_offer, if_neg hca, Option.getD_some]
    exact simConsGo_months_le _ _ _ 0 0 (by omega)

/-- C6: whenever a month of the consolidation loop begins (not done, under the month
cap) with the budget strictly below that month's total required minimum payments, the
loop stops at once, returning the incremented month counter and the interest accrued
so far including that month — it does not raise; and whatever the consolidation
simulator returns carries the offer's id, new rate, max term and the capped
consolidated amount around those loop results. -/
theorem consolidation_budget_insufficient_truncates
    (o : ConsolidationOffer) (income essential varPct budget ti : ℚ)
    (loans ls : List Loan) (cards cs : List Card) (months : ℕ)
    (hrun : simDone loans cards = false) (hm : months < 1000)
    (hb : budget < consMinNeeded loans cards)
    (hpos : 0 < min (consolidationBase o ls cs) o.max_consolidated_balance) :
    simConsGo budget loans cards months ti =
      (months + 1, ti + (loansInterest loans + cardsInterest cards)) ∧
    simulate_consolidation_with_offer o income essential varPct ls cs =
      some ⟨o.offer_id,
        (simConsGo (derivedBudget income essential varPct)
          (⟨min (consolidationBase o ls cs) o.max_consolidated_balance, o.new_rate_pct,
              o.max_term_months, 0, "consolidation"⟩ ::
            ls.filter fun l => l.product_type ∉ o.product_types_eligible)
          (if "card" ∈ o.product_types_eligible then [] else cs) 0 0).1,
        (simConsGo (derivedBudget income essential varPct)
          (⟨min (consolidationBase o ls cs) o.max_consolidated_balance, o.new_rate_pct,
              o.max_term_months, 0, "consolidation"⟩ ::
            ls.filter fun l => l.product_type ∉ o.product_types_eligible)
          (if "card" ∈ o.product_types_eligible then [] else cs) 0 0).2,
        o.new_rate_pct, o.max_term_months,
        min (consolidationBase o ls cs) o.max_consolidated_balance⟩ := by
  constructor
  · rw [simConsGo]
    rw [dif_neg (by simp [hrun]; omega)]
    simp only [if_pos hb]
  · unfold simulate_consolidation_with_offer
    rw [if_neg (by exact not_le.2 hpos)]

/-- Witness for `consolidation_budget_insufficient_truncates`: one active zero-rate
loan needing 100/12 per month against a zero budget, and an offer consolidating a
5000-principal personal loan under a 10000 cap. -/
theorem consolidation_budget_insufficient_truncates_witness :
    simConsGo 0 [⟨100, 0, 12, 0, "personal"⟩] [] 0 0 =
      (0 + 1, 0 + (loansInterest [⟨100, 0, 12, 0, "personal"⟩] + cardsInterest [])) ∧
    simulate_consolidation_with_offer ⟨"OF1", ["personal"], 10, 36, 10000, ""⟩ 0 0 0
        [⟨5000, 20, 24, 0, "personal"⟩] [] =
      some ⟨"OF1",
        (simConsGo (derivedBudget 0 0 0)
          (⟨min (consolidationBase ⟨"OF1", ["personal"], 10, 36, 10000, ""⟩
                [⟨5000, 20, 24, 0, "personal"⟩] [])
              (10000 : ℚ), 10, 36, 0, "consolidation"⟩ ::
            List.filter
              (fun l => l.product_type ∉
                (["personal"] : List String))
              [⟨5000, 20, 24, 0, "personal"⟩])
          (if "card" ∈ (["personal"] : List String) then [] else []) 0 0).1,
        (simConsGo (derivedBudget 0 0 0)
          (⟨min (consolidationBase ⟨"OF1", ["personal"], 10, 36, 10000, ""⟩
                [⟨5000, 20, 24, 0, "personal"⟩] [])
              (10000 : ℚ), 10, 36, 0, "consolidation"⟩ ::
            List.filter
              (fun l => l.product_type ∉
                (["personal"] : List String))
              [⟨5000, 20, 24, 0, "personal"⟩])
          (if "card" ∈ (["personal"] : List String) then [] else []) 0 0).2,
        10, 36,
        min (consolidationBase ⟨"OF1", ["personal"], 10, 36, 10000, ""⟩
            [⟨5000, 20, 24, 0, "personal"⟩] [])
          (10000 : ℚ)⟩ :=
  consolidation_budget_insufficient_truncates
    ⟨"OF1", ["personal"], 10, 36, 10000, ""⟩ 0 0 0 0 0
    [⟨100, 0, 12, 0, "personal"⟩] [⟨5000, 20, 24, 0, "personal"⟩] [] [] 0
    (by norm_num [simDone, loanActive, eps]) (by omega)
    (by norm_num [consMinNeeded, loanMinPayment, pmt, loanActive, eps, cardMinPayment])
    (by norm_num [consolidationBase])

/-- Witness for `card_minimum_payment_floor` at the claim's own card
(balance 1000, rate 45, min_payment_pct 1). -/
theorem card_minimum_payment_floor_witness :
    (minStepCard ⟨1000, 45, 1, 0⟩).balance =
      max 0 ((1000 : ℚ) -
        (min (cardMinPayment ⟨1000, 45, 1, 0⟩)
          ((1000 : ℚ) + cardInterest ⟨1000, 45, 1, 0⟩) - cardInterest ⟨1000, 45, 1, 0⟩)) ∧
    cardMinPayment ⟨1000, 45, 1, 0⟩ = cardInterest ⟨1000, 45, 1, 0⟩ + 1 ∧
    cardInterest ⟨1000, 45, 1, 0⟩ = 75 / 2 ∧
    cardMinPayment ⟨1000, 45, 1, 0⟩ ≠ (1000 : ℚ) * (1 / 100) :=
  card_minimum_payment_floor ⟨1000, 45, 1, 0⟩ (by norm_num [cardActive, eps])

/-- A property that holds on a list and is preserved by `f` survives
`List.modify f i`. -/
theorem forall_mem_modify {α : Type} {P : α → Prop} (f : α → α) (i : ℕ)
    (xs : List α) (hxs : ∀ x ∈ xs, P x) (hf : ∀ x ∈ xs, P (f x)) :
    ∀ y ∈ List.modify f i xs, P y := by
  intro y hy
  rcases List.mem_iff_getElem?.1 hy with ⟨j, hj⟩
  by_cases hij : i = j
  · subst hij
    rw [List.getElem?_modify_eq] at hj
    rcases Option.map_eq_some'.1 hj with ⟨x, hx, rfl⟩
    exact hf x (List.getElem?_mem hx)
  · rw [List.getElem?_modify_ne _ _ hij] at hj
    exact hxs y (List.getElem?_mem hj)

theorem minStepLoan_nonneg (l : Loan) (h : 0 ≤ l.principal) :
    0 ≤ (minStepLoan l).principal := by
  unfold minStepLoan; split
  · exact le_max_left 0 _
  · exact h

theorem minStepCard_nonneg (c : Card) (h : 0 ≤ c.balance) :
    0 ≤ (minStepCard c).balance := by
  unfold minStepCard; split
  · exact le_max_left 0 _
  · exact h

theorem optStepLoan_nonneg (l : Loan) (h : 0 ≤ l.principal) :
    0 ≤ (optStepLoan l).principal := by
  unfold optStepLoan; split
  · exact le_max_left 0 _
  · exact h

theorem optStepCard_nonneg (c : Card) (h : 0 ≤ c.balance) :
    0 ≤ (optStepCard c).balance := by
  unfold optStepCard; split
  · exact le_max_left 0 _
  · exact h

theorem consStepLoan_nonneg (l : Loan) (h : 0 ≤ l.principal) :
    0 ≤ (consStepLoan l).principal := by
  unfold consStepLoan; split
  · exact le_max_left 0 _
  · exact h

theorem consStepCard_nonneg (c : Card) (h : 0 ≤ c.balance) :
    0 ≤ (consStepCard c).balance := by
  unfold consStepCard; split
  · exact le_max_left 0 _
  · exact h

theorem applyExtra_nonneg (extra : ℚ) (cure : Bool) (loans : List Loan)
    (cards : List Card) (hl : ∀ l ∈ loans, 0 ≤ l.principal)
    (hc : ∀ c ∈ cards, 0 ≤ c.balance) :
    (∀ l ∈ (applyExtra extra cure loans cards).1, 0 ≤ l.principal) ∧
    (∀ c ∈ (applyExtra extra cure loans cards).2, 0 ≤ c.balance) := by
  unfold applyExtra
  split
  · split
    · exact ⟨forall_mem_modify _ _ _ hl (fun x _ => le_max_left 0 _), hc⟩
    · exact ⟨hl, forall_mem_modify _ _ _ hc (fun x _ => le_max_left 0 _)⟩
    · exact ⟨hl, hc⟩
  · exact ⟨hl, hc⟩

theorem applyConsExtra_nonneg (avail : ℚ) (loans : List Loan) (cards : List Card)
    (hl : ∀ l ∈ loans, 0 ≤ l.principal) (hc : ∀ c ∈ cards, 0 ≤ c.balance) :
    (∀ l ∈ (applyConsExtra avail loans cards).1, 0 ≤ l.principal) ∧
    (∀ c ∈ (applyConsExtra avail loans cards).2, 0 ≤ c.balance) := by
  unfold applyConsExtra
  split
  · split
    · exact ⟨forall_mem_modify _ _ _ hl (fun x _ => le_max_left 0 _), hc⟩
    · exact ⟨hl, forall_mem_modify _ _ _ hc (fun x _ => le_max_left 0 _)⟩
    · exact ⟨hl, hc⟩
  · exact ⟨hl, hc⟩

/-- C8: starting from non-negative balances, every monthly update of every simulator —
the minimum-payment steps, the avalanche minimum and extra steps, and the
consolidation minimum and extra steps — leaves every loan principal and card balance
non-negative (each update clamps with `max(0, ·)`; overshooting payments leave exactly
zero). -/
theorem monthly_updates_keep_balances_nonneg
    (loans : List Loan) (cards : List Card) (extra avail : ℚ) (cure : Bool)
    (hl : ∀ l ∈ loans, 0 ≤ l.principal) (hc : ∀ c ∈ cards, 0 ≤ c.balance) :
    ((∀ l ∈ loans.map minStepLoan, 0 ≤ l.principal) ∧
      (∀ c ∈ cards.map minStepCard, 0 ≤ c.balance)) ∧
    ((∀ l ∈ loans.map optStepLoan, 0 ≤ l.principal) ∧
      (∀ c ∈ cards.map optStepCard, 0 ≤ c.balance)) ∧
    ((∀ l ∈ loans.map consStepLoan, 0 ≤ l.principal) ∧
      (∀ c ∈ cards.map consStepCard, 0 ≤ c.balance)) ∧
    ((∀ l ∈ (applyExtra extra cure loans cards).1, 0 ≤ l.principal) ∧
      (∀ c ∈ (applyExtra extra cure loans cards).2, 0 ≤ c.balance)) ∧
    ((∀ l ∈ (applyConsExtra avail loans cards).1, 0 ≤ l.principal) ∧
      (∀ c ∈ (applyConsExtra avail loans cards).2, 0 ≤ c.balance)) := by
  refine ⟨⟨?_, ?_⟩, ⟨?_, ?_⟩, ⟨?_, ?_⟩,
    applyExtra_nonneg extra cure loans cards hl hc,
    applyConsExtra_nonneg avail loans cards hl hc⟩ <;>
    intro y hy <;> rcases List.mem_map.1 hy with ⟨x, hx, rfl⟩
  · exact minStepLoan_nonneg x (hl x hx)
  · exact minStepCard_nonneg x (hc x hx)
  · exact optStepLoan_nonneg x (hl x hx)
  · exact optStepCard_nonneg x (hc x hx)
  · exact consStepLoan_nonneg x (hl x hx)
  · exact consStepCard_nonneg x (hc x hx)

/-- Witness for `monthly_updates_keep_balances_nonneg` on one loan and one card. -/
theorem monthly_updates_keep_balances_nonneg_witness :
    ((∀ l ∈ [(⟨100, 10, 12, 0, "personal"⟩ : Loan)].map minStepLoan, 0 ≤ l.principal) ∧
      (∀ c ∈ [(⟨50, 30, 5, 0⟩ : Card)].map minStepCard, 0 ≤ c.balance)) ∧
    ((∀ l ∈ [(⟨100, 10, 12, 0, "personal"⟩ : Loan)].map optStepLoan, 0 ≤ l.principal) ∧
      (∀ c ∈ [(⟨50, 30, 5, 0⟩ : Card)].map optStepCard, 0 ≤ c.balance)) ∧
    ((∀ l ∈ [(⟨100, 10, 12, 0, "personal"⟩ : Loan)].map consStepLoan, 0 ≤ l.principal) ∧
      (∀ c ∈ [(⟨50, 30, 5, 0⟩ : Card)].map consStepCard, 0 ≤ c.balance)) ∧
    ((∀ l ∈ (applyExtra 7 true [⟨100, 10, 12, 0, "personal"⟩] [⟨50, 30, 5, 0⟩]).1,
        0 ≤ l.principal) ∧
      (∀ c ∈ (applyExtra 7 true [⟨100, 10, 12, 0, "personal"⟩] [⟨50, 30, 5, 0⟩]).2,
        0 ≤ c.balance)) ∧
    ((∀ l ∈ (applyConsExtra 3 [⟨100, 10, 12, 0, "personal"⟩] [⟨50, 30, 5, 0⟩]).1,
        0 ≤ l.principal) ∧
      (∀ c ∈ (applyConsExtra 3 [⟨100, 10, 12, 0, "personal"⟩] [⟨50, 30, 5, 0⟩]).2,
        0 ≤ c.balance)) :=
  monthly_updates_keep_balances_nonneg [⟨100, 10, 12, 0, "personal"⟩] [⟨50, 30, 5, 0⟩]
    7 3 true (by norm_num) (by norm_num)

/-- C7: whenever the avalanche extra budget exceeds 1e-6 and `get_priority_debt`
selects a debt, the entire extra goes to that single instrument as
`min(extra, balance)` and every other instrument — in both lists — is untouched that
month. -/
theorem avalanche_extra_single_recipient
    (extra : ℚ) (cure : Bool) (loans : List Loan) (cards : List Card)
    (k : DebtKey) (r : DebtRef) (amt : ℚ)
    (hx : eps < extra)
    (hp : get_priority_debt cure loans cards = some (k, r, amt)) :
    (∀ i, r = DebtRef.loan i →
      (applyExtra extra cure loans cards).2 = cards ∧
      (∀ j, j ≠ i → (applyExtra extra cure loans cards).1[j]? = loans[j]?) ∧
      (applyExtra extra cure loans cards).1[i]? =
        loans[i]?.map (applyExtraLoan extra)) ∧
    (∀ i, r = DebtRef.card i →
      (applyExtra extra cure loans cards).1 = loans ∧
      (∀ j, j ≠ i → (applyExtra extra cure loans cards).2[j]? = cards[j]?) ∧
      (applyExtra extra cure loans cards).2[i]? =
        cards[i]?.map (applyExtraCard extra)) := by
  unfold applyExtra
  rw [if_pos hx, hp]
  constructor
  · rintro i rfl
    exact ⟨rfl, fun j hj => List.getElem?_modify_ne _ _ (fun h => hj h.symm),
      List.getElem?_modify_eq _ _ _⟩
  · rintro i rfl
    exact ⟨rfl, fun j hj => List.getElem?_modify_ne _ _ (fun h => hj h.symm),
      List.getElem?_modify_eq _ _ _⟩

/-- Witness for `avalanche_extra_single_recipient`: extra 1 against a single active
loan. -/
theorem avalanche_extra_single_recipient_witness :
    (∀ i, DebtRef.loan 0 = DebtRef.loan i →
      (applyExtra 1 false [⟨100, 10, 12, 0, "personal"⟩] []).2 = [] ∧
      (∀ j, j ≠ i →
        (applyExtra 1 false [⟨100, 10, 12, 0, "personal"⟩] []).1[j]? =
          ([(⟨100, 10, 12, 0, "personal"⟩ : Loan)])[j]?) ∧
      (applyExtra 1 false [⟨100, 10, 12, 0, "personal"⟩] []).1[i]? =
        ([(⟨100, 10, 12, 0, "personal"⟩ : Loan)])[i]?.map (applyExtraLoan 1)) ∧
    (∀ i, DebtRef.loan 0 = DebtRef.card i →
      (applyExtra 1 false [⟨100, 10, 12, 0, "personal"⟩] []).1 =
        [⟨100, 10, 12, 0, "personal"⟩] ∧
      (∀ j, j ≠ i →
        (applyExtra 1 false [⟨100, 10, 12, 0, "personal"⟩] []).2[j]? =
          ([] : List Card)[j]?) ∧
      (applyExtra 1 false [⟨100, 10, 12, 0, "personal"⟩] []).2[i]? =
        ([] : List Card)[i]?.map (applyExtraCard 1)) :=
  avalanche_extra_single_recipient 1 false [⟨100, 10, 12, 0, "personal"⟩] []
    ⟨1, -10, 1, 0⟩ (DebtRef.loan 0) 100 (by norm_num [eps])
    (by norm_num [get_priority_debt, debtEntries, dpdTier, loanActive, eps, List.enum,
      List.enumFrom, List.filterMap_cons, List.filterMap_nil, List.foldl_cons,
      List.foldl_nil])

/-- C1 (code defect): for a customer and offer on which all three deterministic
checks pass and whose conditions text is empty, the eligibility logic of the method
body would mark the offer eligible without any AI verdict — but the actual call
`self._check_basic_eligibility(customer_data, offer, credit_score)` at line 71 passes
three arguments to a two-parameter method, so `_check_eligibility_with_ai` raises
`TypeError` on every input, `get_eligible_offers` catches it (line 537) and skips the
offer, and the eligible list comes back empty instead of containing the offer. -/
theorem basic_eligible_offer_skipped_by_arity_error :
    check_basic_eligibility [⟨5000, 20, 24, 0, "personal"⟩] []
      ⟨"OF1", ["personal"], 10, 36, 10000, ""⟩ = true ∧
    hasRealConditions "" = false ∧
    check_eligibility_logic [⟨5000, 20, 24, 0, "personal"⟩] []
      ⟨"OF1", ["personal"], 10, 36, 10000, ""⟩ false = true ∧
    (∀ (loans : List Loan) (cards : List Card) (o : ConsolidationOffer) (s : ℤ),
      check_eligibility_with_ai loans cards o s = Except.error PyError.typeError) ∧
    get_eligible_offers [⟨5000, 20, 24, 0, "personal"⟩] []
      [⟨"OF1", ["personal"], 10, 36, 10000, ""⟩] 700 = [] := by
  have hbasic : check_basic_eligibility [⟨5000, 20, 24, 0, "personal"⟩] []
      ⟨"OF1", ["personal"], 10, 36, 10000, ""⟩ = true := by
    norm_num [check_basic_eligibility, eligibleDebt, maxTermExceeded,
      List.filter_cons, List.filter_nil]
  refine ⟨hbasic, by decide, ?_, fun _ _ _ _ => rfl, ?_⟩
  · simp [check_eligibility_logic, hbasic, hasRealConditions]
  · simp [get_eligible_offers, check_eligibility_with_ai]

/-- C9: when the Azure AI manager is not initialized, `evaluate_consolidation_conditions`
returns `True` for every customer profile, offer and would-be model verdict
(fail-open), so an offer with real free-text conditions that passes the numeric checks
is judged eligible without its conditions ever being evaluated — in contrast with the
`False` returned when the evaluation call raises. -/
theorem ai_manager_uninitialized_fail_open {α : Type} (profile : α)
    (ai : Except Unit Bool) (loans : List Loan) (cards : List Card)
    (o : ConsolidationOffer)
    (hcond : hasRealConditions o.conditions = true)
    (hbasic : check_basic_eligibility loans cards o = true) :
    evaluate_consolidation_conditions false profile ai o = true ∧
    check_eligibility_logic loans cards o
      (evaluate_consolidation_conditions false profile ai o) = true ∧
    evaluate_consolidation_conditions true profile (Except.error ()) o = false := by
  have h1 : evaluate_consolidation_conditions false profile ai o = true := by
    simp [evaluate_consolidation_conditions]
  have hcond0 := hcond
  simp only [hasRealConditions, Bool.and_eq_true, decide_eq_true_eq, ne_eq] at hcond0
  obtain ⟨⟨hne, hstrip⟩, hmem⟩ := hcond0
  refine ⟨h1, ?_, ?_⟩
  · simp [check_eligibility_logic, hbasic, hcond, h1]
  · have hmem2 : pyLower o.conditions ∉ (["none", "none specified"] : List String) := by
      intro h
      exact hmem (by simpa using Or.imp_right Or.inl (List.mem_cons.1 h))
    simp [evaluate_consolidation_conditions, hne, hstrip, hmem2]

/-- Witness for `ai_manager_uninitialized_fail_open`: an offer with the condition text
"Requires credit score above 700" whose numeric checks pass. -/
theorem ai_manager_uninitialized_fail_open_witness :
    evaluate_consolidation_conditions false () (Except.ok false)
      ⟨"OF2", ["personal"], 12, 36, 10000, "Requires credit score above 700"⟩ = true ∧
    check_eligibility_logic [⟨5000, 20, 24, 0, "personal"⟩] []
      ⟨"OF2", ["personal"], 12, 36, 10000, "Requires credit score above 700"⟩
      (evaluate_consolidation_conditions false () (Except.ok false)
        ⟨"OF2", ["personal"], 12, 36, 10000, "Requires credit score above 700"⟩) =
      true ∧
    evaluate_consolidation_conditions true () (Except.error ())
      ⟨"OF2", ["personal"], 12, 36, 10000, "Requires credit score above 700"⟩ =
      false :=
  ai_manager_uninitialized_fail_open () (Except.ok false)
    [⟨5000, 20, 24, 0, "personal"⟩] []
    ⟨"OF2", ["personal"], 12, 36, 10000, "Requires credit score above 700"⟩
    (by decide)
    (by norm_num [check_basic_eligibility, eligibleDebt, maxTermExceeded,
      List.filter_cons, List.filter_nil])

/-- The avalanche per-loan minimum-payment application computes exactly the
minimum-simulator update (the source code at lines 457–471 repeats the arithmetic of
lines 246–278 row by row). -/
theorem optStepLoan_eq_minStepLoan : optStepLoan = minStepLoan := by
  funext l; rfl

/-- The avalanche per-card minimum-payment application computes exactly the
minimum-simulator update (lines 474–485 versus 280–307). -/
theorem optStepCard_eq_minStepCard : optStepCard = minStepCard := by
  funext c; rfl

theorem minStepLoan_rate (l : Loan) :
    (minStepLoan l).annual_rate_pct = l.annual_rate_pct := by
  unfold minStepLoan; split <;> rfl

theorem minStepCard_rate (c : Card) :
    (minStepCard c).annual_rate_pct = c.annual_rate_pct := by
  unfold minStepCard; split <;> rfl

theorem pmt_nonneg (p r : ℚ) (n : ℤ) (hp : 0 ≤ p) (hr : 0 ≤ r) : 0 ≤ pmt p r n := by
  simp only [pmt]
  split
  · exact hp
  · next hn =>
    split
    · next hz =>
      apply div_nonneg hp
      have h0 : (0 : ℤ) < n := by omega
      exact_mod_cast h0.le
    · next hz =>
      have hr0 : 0 ≤ r / 100 / 12 := by positivity
      have hr' : 0 < r / 100 / 12 := lt_of_le_of_ne hr0 (Ne.symm hz)
      have hk : n.toNat ≠ 0 := by omega
      have h1 : 1 < (1 + r / 100 / 12) ^ n.toNat := one_lt_pow₀ (by linarith) hk
      apply div_nonneg
      · exact mul_nonneg hp (mul_nonneg hr0 (pow_nonneg (by linarith) _))
      · linarith

theorem loanActive_nonneg (l : Loan) (h : loanActive l = true) : 0 ≤ l.principal := by
  simp only [loanActive, decide_eq_true_eq] at h
  have : (0 : ℚ) < eps := by norm_num [eps]
  linarith

theorem cardActive_nonneg (c : Card) (h : cardActive c = true) : 0 ≤ c.balance := by
  simp only [cardActive, decide_eq_true_eq] at h
  have : (0 : ℚ) < eps := by norm_num [eps]
  linarith

theorem cardMinPayment_nonneg (c : Card) (hb : 0 ≤ c.balance)
    (hr : 0 ≤ c.annual_rate_pct) : 0 ≤ cardMinPayment c := by
  have hi : 0 ≤ cardInterest c := by
    unfold cardInterest monthlyRate
    positivity
  calc (0 : ℚ) ≤ cardInterest c + 1 := by linarith
  _ ≤ cardMinPayment c := le_max_right _ _

theorem calculate_minimum_payments_nonneg (loans : List Loan) (cards : List Card)
    (hl : ∀ l ∈ loans, 0 ≤ l.annual_rate_pct)
    (hc : ∀ c ∈ cards, 0 ≤ c.annual_rate_pct) :
    0 ≤ calculate_minimum_payments loans cards := by
  unfold calculate_minimum_payments
  have h1 : 0 ≤ ((loans.filter loanActive).map loanMinPayment).sum := by
    apply List.sum_nonneg
    intro x hx
    rcases List.mem_map.1 hx with ⟨l, hlmem, rfl⟩
    have hact := List.of_mem_filter hlmem
    have hmem := List.mem_of_mem_filter hlmem
    exact pmt_nonneg _ _ _ (loanActive_nonneg l hact) (hl l hmem)
  have h2 : 0 ≤ ((cards.filter cardActive).map cardMinPayment).sum := by
    apply List.sum_nonneg
    intro x hx
    rcases List.mem_map.1 hx with ⟨c, hcmem, rfl⟩
    have hact := List.of_mem_filter hcmem
    have hmem := List.mem_of_mem_filter hcmem
    exact cardMinPayment_nonneg c (cardActive_nonneg c hact) (hc c hmem)
  linarith

/-- With a zero budget the avalanche loop performs exactly the minimum-payment loop:
the extra is `max(0, 0 − mins) = 0`, below the 1e-6 threshold, so no extra payment is
ever applied and the per-row minimum updates coincide. -/
theorem simOptGo_zero_budget (cure : Bool) (loans : List Loan) (cards : List Card)
    (months : ℕ) (ti : ℚ)
    (hl : ∀ l ∈ loans, 0 ≤ l.annual_rate_pct)
    (hc : ∀ c ∈ cards, 0 ≤ c.annual_rate_pct) :
    simOptGo 0 cure loans cards months ti = simMinGo loans cards months ti := by
  by_cases hg : simDone loans cards = true ∨ 1000 ≤ months
  · rw [simOptGo, simMinGo, dif_pos hg, dif_pos hg]
  · have hmins : 0 ≤ calculate_minimum_payments loans cards :=
      calculate_minimum_payments_nonneg loans cards hl hc
    have happ : applyExtra (max 0 (0 - calculate_minimum_payments loans cards)) cure
        (loans.map optStepLoan) (cards.map optStepCard) =
        (loans.map optStepLoan, cards.map optStepCard) := by
      have hextra : max 0 (0 - calculate_minimum_payments loans cards) = 0 :=
        max_eq_left (by linarith)
      rw [hextra, applyExtra, if_neg (by norm_num [eps])]
    rw [simOptGo, simMinGo, dif_neg hg, dif_neg hg]
    simp only [happ]
    rw [optStepLoan_eq_minStepLoan, optStepCard_eq_minStepCard]
    refine simOptGo_zero_budget cure _ _ (months + 1) _ ?_ ?_
    · intro l hlm
      rcases List.mem_map.1 hlm with ⟨x, hx, rfl⟩
      rw [minStepLoan_rate]
      exact hl x hx
    · intro c hcm
      rcases List.mem_map.1 hcm with ⟨x, hx, rfl⟩
      rw [minStepCard_rate]
      exact hc x hx
  termination_by 1000 - months
  decreasing_by simp only [not_or, not_le] at hg; omega

/-- C10: the avalanche simulator applies minimum payments in full regardless of the
budget (the budget only feeds the extra payment and there is no insufficient-budget
abort), so for a customer whose derived budget is zero (income at or below essential
expenses plus the variability buffer) it returns exactly the minimum-payment
simulator's result. -/
theorem zero_budget_avalanche_equals_minimum
    (income essential varPct : ℚ) (cure : Bool) (loans : List Loan)
    (cards : List Card)
    (hbudget : income - essential - income * (varPct / 100) ≤ 0)
    (hl : ∀ l ∈ loans, 0 ≤ l.annual_rate_pct)
    (hc : ∀ c ∈ cards, 0 ≤ c.annual_rate_pct) :
    simulate_optimized_payments income essential varPct cure loans cards =
      simulate_minimum_payments loans cards := by
  unfold simulate_optimized_payments simulate_minimum_payments
  have hb : derivedBudget income essential varPct = 0 := max_eq_left hbudget
  rw [hb]
  simp only []
  rw [simOptGo_zero_budget cure loans cards 0 0 hl hc]

/-- Witness for `zero_budget_avalanche_equals_minimum`: income 1000, essential
expenses 1000, no variability, one loan and one card. -/
theorem zero_budget_avalanche_equals_minimum_witness :
    simulate_optimized_payments 1000 1000 0 true [⟨100, 10, 12, 0, "personal"⟩]
      [⟨50, 30, 5, 0⟩] =
      simulate_minimum_payments [⟨100, 10, 12, 0, "personal"⟩] [⟨50, 30, 5, 0⟩] :=
  zero_budget_avalanche_equals_minimum 1000 1000 0 true
    [⟨100, 10, 12, 0, "personal"⟩] [⟨50, 30, 5, 0⟩]
    (by norm_num) (by norm_num) (by norm_num)

theorem sub_min_eq_max_sub (a b c : ℚ) : a - min b c = max (a - b) (a - c) := by
  rcases le_total b c with h | h
  · rw [min_eq_left h, max_eq_left (by linarith)]
  · rw [min_eq_right h, max_eq_right (by linarith)]

theorem sub_max_eq_min_sub (a b c : ℚ) : a - max b c = min (a - b) (a - c) := by
  rcases le_total b c with h | h
  · rw [max_eq_right h, min_eq_right (by linarith)]
  · rw [max_eq_left h, min_eq_left (by linarith)]

/-- `_pmt` is linear in the principal (each case scales with it). -/
theorem pmt_linear (p r : ℚ) (n : ℤ) : pmt p r n = p * pmt 1 r n := by
  simp only [pmt]
  split
  · ring
  · split
    · rw [one_div, div_eq_mul_inv]
    · rw [one_mul, mul_div_assoc]

/-- Closed form of the active-loan monthly principal update:
`max(principal * (1 + r − min(C, 1+r)), 0)` with `C` the unit `_pmt` coefficient and
`r` the monthly rate. -/
theorem minStepLoan_principal_active (l : Loan) (h : loanActive l = true) :
    (minStepLoan l).principal =
      max (l.principal * (1 + monthlyRate l.annual_rate_pct -
        min (pmt 1 l.annual_rate_pct (max 1 l.remaining_term_months))
          (1 + monthlyRate l.annual_rate_pct))) 0 := by
  have hp : 0 ≤ l.principal := loanActive_nonneg l h
  unfold minStepLoan
  rw [if_pos h]
  simp only [loanInterest]
  rw [pmt_linear]
  rw [show l.principal + l.principal * monthlyRate l.annual_rate_pct =
        l.principal * (1 + monthlyRate l.annual_rate_pct) by ring]
  rw [← mul_min_of_nonneg _ _ hp]
  rw [max_comm]
  congr 1
  ring

/-- Closed form of the active-card monthly balance update:
`max(min(balance * (1 + r − q), balance − 1), 0)` with `q = min_payment_pct/100` and
`r` the monthly rate. -/
theorem minStepCard_balance_active (c : Card) (h : cardActive c = true) :
    (minStepCard c).balance =
      max (min (c.balance * (1 + monthlyRate c.annual_rate_pct -
        c.min_payment_pct / 100)) (c.balance - 1)) 0 := by
  unfold minStepCard cardMinPayment cardInterest
  rw [if_pos h]
  simp only []
  rw [show c.balance -
        (min (max (c.balance * (c.min_payment_pct / 100))
            (c.balance * monthlyRate c.annual_rate_pct + 1))
          (c.balance + c.balance * monthlyRate c.annual_rate_pct) -
          c.balance * monthlyRate c.annual_rate_pct) =
      (c.balance + c.balance * monthlyRate c.annual_rate_pct) -
        min (max (c.balance * (c.min_payment_pct / 100))
            (c.balance * monthlyRate c.annual_rate_pct + 1))
          (c.balance + c.balance * monthlyRate c.annual_rate_pct) by ring]
  rw [sub_min_eq_max_sub, sub_self, sub_max_eq_min_sub]
  rw [show c.balance + c.balance * monthlyRate c.annual_rate_pct -
        c.balance * (c.min_payment_pct / 100) =
      c.balance * (1 + monthlyRate c.annual_rate_pct - c.min_payment_pct / 100)
      by ring]
  rw [show c.balance + c.balance * monthlyRate c.annual_rate_pct -
        (c.balance * monthlyRate c.annual_rate_pct + 1) = c.balance - 1 by ring]
  rw [max_comm (0 : ℚ), max_assoc, max_self]

theorem max_mul_zero_mono {k b1 b2 : ℚ} (h1 : 0 ≤ b1) (hle : b1 ≤ b2) :
    max (b1 * k) 0 ≤ max (b2 * k) 0 := by
  rcases le_or_lt 0 k with hk | hk
  · exact max_le_max (mul_le_mul_of_nonneg_right hle hk) le_rfl
  · rw [max_eq_right (mul_nonpos_of_nonneg_of_nonpos h1 hk.le),
      max_eq_right (mul_nonpos_of_nonneg_of_nonpos (h1.trans hle) hk.le)]

theorem card_update_mono {k b1 b2 : ℚ} (hk : 0 ≤ k) (hle : b1 ≤ b2) :
    max (min (b1 * k) (b1 - 1)) 0 ≤ max (min (b2 * k) (b2 - 1)) 0 :=
  max_le_max (min_le_min (mul_le_mul_of_nonneg_right hle hk) (by linarith)) le_rfl

/-- The coupled per-loan minimum-payment update preserves `LoanRel`. -/
theorem LoanRel_minStep {a m : Loan} (h : LoanRel a m) :
    LoanRel (minStepLoan a) (minStepLoan m) := by
  obtain ⟨hpa, hpm, hrate, hrm, hcond⟩ := h
  by_cases ha : loanActive a = true
  · obtain ⟨hple, hterm⟩ := hcond ha
    have hm : loanActive m = true := by
      simp only [loanActive, decide_eq_true_eq] at ha ⊢
      linarith
    have hfa := minStepLoan_principal_active a ha
    have hfm := minStepLoan_principal_active m hm
    refine ⟨?_, ?_, ?_, ?_, ?_⟩
    · rw [hfa]; exact le_max_right _ _
    · rw [hfm]; exact le_max_right _ _
    · rw [minStepLoan_rate, minStepLoan_rate]; exact hrate
    · rw [minStepLoan_rate]; exact hrm
    · intro _
      constructor
      · rw [hfa, hfm, hrate, hterm]
        exact max_mul_zero_mono hpa hple
      · unfold minStepLoan
        rw [if_pos ha, if_pos hm]
        simp only [hterm]
  · have hstep : minStepLoan a = a := by unfold minStepLoan; rw [if_neg ha]
    refine ⟨by rw [hstep]; exact hpa, minStepLoan_nonneg m hpm, ?_, ?_, ?_⟩
    · rw [hstep, minStepLoan_rate]; exact hrate
    · rw [minStepLoan_rate]; exact hrm
    · intro hact
      rw [hstep] at hact
      exact absurd hact ha

/-- The coupled per-card minimum-payment update preserves `CardRel`. -/
theorem CardRel_minStep {a m : Card} (h : CardRel a m) :
    CardRel (minStepCard a) (minStepCard m) := by
  obtain ⟨hba, hbm, hrate, hrm, hpct, hq, hcond⟩ := h
  by_cases ha : cardActive a = true
  · have hble := hcond ha
    have hm : cardActive m = true := by
      simp only [cardActive, decide_eq_true_eq] at ha ⊢
      linarith
    have hfa := minStepCard_balance_active a ha
    have hfm := minStepCard_balance_active m hm
    have hpct_pres_a : (minStepCard a).min_payment_pct = a.min_payment_pct := by
      unfold minStepCard; split <;> rfl
    have hpct_pres_m : (minStepCard m).min_payment_pct = m.min_payment_pct := by
      unfold minStepCard; split <;> rfl
    refine ⟨?_, ?_, ?_, ?_, ?_, ?_, ?_⟩
    · rw [hfa]; exact le_max_right _ _
    · rw [hfm]; exact le_max_right _ _
    · rw [minStepCard_rate, minStepCard_rate]; exact hrate
    · rw [minStepCard_rate]; exact hrm
    · rw [hpct_pres_a, hpct_pres_m]; exact hpct
    · rw [hpct_pres_m]; exact hq
    · intro _
      rw [hfa, hfm, hrate, hpct]
      have hk : 0 ≤ 1 + monthlyRate m.annual_rate_pct - m.min_payment_pct / 100 := by
        have : 0 ≤ monthlyRate m.annual_rate_pct := by
          unfold monthlyRate; positivity
        linarith
      exact card_update_mono hk hble
  · have hstep : minStepCard a = a := by unfold minStepCard; rw [if_neg ha]
    have hpct_pres_m : (minStepCard m).min_payment_pct = m.min_payment_pct := by
      unfold minStepCard; split <;> rfl
    refine ⟨by rw [hstep]; exact hba, minStepCard_nonneg m hbm, ?_, ?_, ?_, ?_, ?_⟩
    · rw [hstep, minStepCard_rate]; exact hrate
    · rw [minStepCard_rate]; exact hrm
    · rw [hstep, hpct_pres_m]; exact hpct
    · rw [hpct_pres_m]; exact hq
    · intro hact
      rw [hstep] at hact
      exact absurd hact ha

theorem forall₂_map_minStepLoan {la lm : List Loan}
    (h : List.Forall₂ LoanRel la lm) :
    List.Forall₂ LoanRel (la.map minStepLoan) (lm.map minStepLoan) := by
  induction h with
  | nil => exact List.Forall₂.nil
  | cons hr _ ih =>
    simp only [List.map_cons]
    exact List.Forall₂.cons (LoanRel_minStep hr) ih

theorem forall₂_map_minStepCard {ca cm : List Card}
    (h : List.Forall₂ CardRel ca cm) :
    List.Forall₂ CardRel (ca.map minStepCard) (cm.map minStepCard) := by
  induction h with
  | nil => exact List.Forall₂.nil
  | cons hr _ ih =>
    simp only [List.map_cons]
    exact List.Forall₂.cons (CardRel_minStep hr) ih

theorem monthlyRate_nonneg {r : ℚ} (h : 0 ≤ r) : 0 ≤ monthlyRate r := by
  unfold monthlyRate; positivity

theorem loansInterest_mono {la lm : List Loan} (h : List.Forall₂ LoanRel la lm) :
    loansInterest la ≤ loansInterest lm := by
  induction h with
  | nil => exact le_rfl
  | cons hr hrest ih =>
    next a m la' lm' =>
    simp only [loansInterest, List.map_cons, List.sum_cons] at ih ⊢
    obtain ⟨hpa, hpm, hrate, hrm, hcond⟩ := hr
    have hhead : (if loanActive a then loanInterest a else 0) ≤
        (if loanActive m then loanInterest m else 0) := by
      by_cases ha : loanActive a = true
      · obtain ⟨hple, _⟩ := hcond ha
        have hm : loanActive m = true := by
          simp only [loanActive, decide_eq_true_eq] at ha ⊢
          linarith
        rw [if_pos ha, if_pos hm]
        unfold loanInterest
        rw [hrate]
        exact mul_le_mul_of_nonneg_right hple (monthlyRate_nonneg hrm)
      · rw [if_neg ha]
        split
        · exact mul_nonneg hpm (monthlyRate_nonneg hrm)
        · exact le_rfl
    exact add_le_add hhead ih

theorem cardsInterest_mono {ca cm : List Card} (h : List.Forall₂ CardRel ca cm) :
    cardsInterest ca ≤ cardsInterest cm := by
  induction h with
  | nil => exact le_rfl
  | cons hr hrest ih =>
    next a m ca' cm' =>
    simp only [cardsInterest, List.map_cons, List.sum_cons] at ih ⊢
    obtain ⟨hba, hbm, hrate, hrm, _, _, hcond⟩ := hr
    have hhead : (if cardActive a then cardInterest a else 0) ≤
        (if cardActive m then cardInterest m else 0) := by
      by_cases ha : cardActive a = true
      · have hble := hcond ha
        have hm : cardActive m = true := by
          simp only [cardActive, decide_eq_true_eq] at ha ⊢
          linarith
        rw [if_pos ha, if_pos hm]
        unfold cardInterest
        rw [hrate]
        exact mul_le_mul_of_nonneg_right hble (monthlyRate_nonneg hrm)
      · rw [if_neg ha]
        split
        · exact mul_nonneg hbm (monthlyRate_nonneg hrm)
        · exact le_rfl
    exact add_le_add hhead ih

theorem all_loans_inactive_of_forall₂ {la lm : List Loan}
    (h : List.Forall₂ LoanRel la lm)
    (hm : ∀ m ∈ lm, (! loanActive m) = true) :
    ∀ a ∈ la, (! loanActive a) = true := by
  induction h with
  | nil => intro a ha; simp at ha
  | cons hr hrest ih =>
    next x y la' lm' =>
    intro a ha
    rcases List.mem_cons.1 ha with rfl | ha'
    · obtain ⟨_, _, _, _, hcond⟩ := hr
      cases hb : loanActive a
      · rfl
      · obtain ⟨hple, _⟩ := hcond hb
        have hy := hm y (List.mem_cons_self y lm')
        simp only [loanActive, Bool.not_eq_true', decide_eq_false_iff_not,
          not_lt] at hy
        simp only [loanActive, decide_eq_true_eq] at hb
        linarith
    · exact ih (fun m hmm => hm m (List.mem_cons_of_mem y hmm)) a ha'

theorem all_cards_inactive_of_forall₂ {ca cm : List Card}
    (h : List.Forall₂ CardRel ca cm)
    (hm : ∀ m ∈ cm, (! cardActive m) = true) :
    ∀ a ∈ ca, (! cardActive a) = true := by
  induction h with
  | nil => intro a ha; simp at ha
  | cons hr hrest ih =>
    next x y ca' cm' =>
    intro a ha
    rcases List.mem_cons.1 ha with rfl | ha'
    · obtain ⟨_, _, _, _, _, _, hcond⟩ := hr
      cases hb : cardActive a
      · rfl
      · have hble := hcond hb
        have hy := hm y (List.mem_cons_self y cm')
        simp only [cardActive, Bool.not_eq_true', decide_eq_false_iff_not,
          not_lt] at hy
        simp only [cardActive, decide_eq_true_eq] at hb
        linarith
    · exact ih (fun m hmm => hm m (List.mem_cons_of_mem y hmm)) a ha'

theorem simDone_of_forall₂ {la lm : List Loan} {ca cm : List Card}
    (hL : List.Forall₂ LoanRel la lm) (hC : List.Forall₂ CardRel ca cm)
    (h : simDone lm cm = true) : simDone la ca = true := by
  simp only [simDone, Bool.and_eq_true, List.all_eq_true] at h ⊢
  exact ⟨all_loans_inactive_of_forall₂ hL h.1, all_cards_inactive_of_forall₂ hC h.2⟩

theorem MinvLoans_of_forall₂ {la lm : List Loan}
    (h : List.Forall₂ LoanRel la lm) : MinvLoans lm := by
  induction h with
  | nil => intro m hm; simp at hm
  | cons hr _ ih =>
    intro m hm
    rcases List.mem_cons.1 hm with rfl | hm'
    · exact ⟨hr.2.1, hr.2.2.2.1⟩
    · exact ih m hm'

theorem MinvCards_of_forall₂ {ca cm : List Card}
    (h : List.Forall₂ CardRel ca cm) : MinvCards cm := by
  induction h with
  | nil => intro m hm; simp at hm
  | cons hr _ ih =>
    intro m hm
    rcases List.mem_cons.1 hm with rfl | hm'
    · exact ⟨hr.2.1, hr.2.2.2.1⟩
    · exact ih m hm'

theorem MinvLoans_map_minStep {loans : List Loan} (h : MinvLoans loans) :
    MinvLoans (loans.map minStepLoan) := by
  intro l hl
  rcases List.mem_map.1 hl with ⟨x, hx, rfl⟩
  obtain ⟨hp, hr⟩ := h x hx
  exact ⟨minStepLoan_nonneg x hp, by rw [minStepLoan_rate]; exact hr⟩

theorem MinvCards_map_minStep {cards : List Card} (h : MinvCards cards) :
    MinvCards (cards.map minStepCard) := by
  intro c hc
  rcases List.mem_map.1 hc with ⟨x, hx, rfl⟩
  obtain ⟨hb, hr⟩ := h x hx
  exact ⟨minStepCard_nonneg x hb, by rw [minStepCard_rate]; exact hr⟩

theorem loansInterest_nonneg {loans : List Loan} (h : MinvLoans loans) :
    0 ≤ loansInterest loans := by
  unfold loansInterest
  apply List.sum_nonneg
  intro x hx
  rcases List.mem_map.1 hx with ⟨l, hl, rfl⟩
  obtain ⟨hp, hr⟩ := h l hl
  split
  · exact mul_nonneg hp (monthlyRate_nonneg hr)
  · exact le_rfl

theorem cardsInterest_nonneg {cards : List Card} (h : MinvCards cards) :
    0 ≤ cardsInterest cards := by
  unfold cardsInterest
  apply List.sum_nonneg
  intro x hx
  rcases List.mem_map.1 hx with ⟨c, hc, rfl⟩
  obtain ⟨hb, hr⟩ := h c hc
  split
  · exact mul_nonneg hb (monthlyRate_nonneg hr)
  · exact le_rfl

/-- The minimum-payment loop never decreases the month counter or the accumulated
interest (on valid data). -/
theorem simMinGo_ge (loans : List Loan) (cards : List Card) (months : ℕ) (ti : ℚ)
    (hl : MinvLoans loans) (hc : MinvCards cards) :
    months ≤ (simMinGo loans cards months ti).1 ∧
      ti ≤ (simMinGo loans cards months ti).2 := by
  by_cases hg : simDone loans cards = true ∨ 1000 ≤ months
  · rw [simMinGo, dif_pos hg]
    exact ⟨le_rfl, le_rfl⟩
  · rw [simMinGo, dif_neg hg]
    have ih := simMinGo_ge (loans.map minStepLoan) (cards.map minStepCard)
      (months + 1) (ti + loansInterest loans + cardsInterest cards)
      (MinvLoans_map_minStep hl) (MinvCards_map_minStep hc)
    refine ⟨le_trans (Nat.le_succ months) ih.1, le_trans ?_ ih.2⟩
    have h1 := loansInterest_nonneg hl
    have h2 := cardsInterest_nonneg hc
    linarith
  termination_by 1000 - months
  decreasing_by simp only [not_or, not_le] at hg; omega

theorem forall₂_modify_left {α : Type} {R : α → α → Prop} (f : α → α) (i : ℕ)
    {as bs : List α} (h : List.Forall₂ R as bs)
    (hf : ∀ a b, R a b → R (f a) b) :
    List.Forall₂ R (List.modify f i as) bs := by
  induction h generalizing i with
  | nil => simp
  | cons hr hrest ih =>
    cases i with
    | zero => simpa using List.Forall₂.cons (hf _ _ hr) hrest
    | succ n => simpa using List.Forall₂.cons hr (ih n)

theorem LoanRel_applyExtraLoan (extra : ℚ) (hx : 0 ≤ extra) {a m : Loan}
    (h : LoanRel a m) : LoanRel (applyExtraLoan extra a) m := by
  obtain ⟨hpa, hpm, hrate, hrm, hcond⟩ := h
  have hle : (applyExtraLoan extra a).principal ≤ a.principal := by
    unfold applyExtraLoan
    simp only []
    exact max_le hpa (by linarith [le_min hx hpa])
  refine ⟨le_max_left 0 _, hpm, hrate, hrm, fun hact => ?_⟩
  have haa : loanActive a = true := by
    simp only [loanActive, decide_eq_true_eq] at hact ⊢
    linarith
  obtain ⟨hple, hterm⟩ := hcond haa
  exact ⟨le_trans hle hple, hterm⟩

theorem CardRel_applyExtraCard (extra : ℚ) (hx : 0 ≤ extra) {a m : Card}
    (h : CardRel a m) : CardRel (applyExtraCard extra a) m := by
  obtain ⟨hba, hbm, hrate, hrm, hpct, hq, hcond⟩ := h
  have hle : (applyExtraCard extra a).balance ≤ a.balance := by
    unfold applyExtraCard
    simp only []
    exact max_le hba (by linarith [le_min hx hba])
  refine ⟨le_max_left 0 _, hbm, hrate, hrm, hpct, hq, fun hact => ?_⟩
  have haa : cardActive a = true := by
    simp only [cardActive, decide_eq_true_eq] at hact ⊢
    linarith
  exact le_trans hle (hcond haa)

theorem forall₂_applyExtra (extra : ℚ) (hx : 0 ≤ extra) (cure : Bool)
    {la lm : List Loan} {ca cm : List Card}
    (hL : List.Forall₂ LoanRel la lm) (hC : List.Forall₂ CardRel ca cm) :
    List.Forall₂ LoanRel (applyExtra extra cure la ca).1 lm ∧
      List.Forall₂ CardRel (applyExtra extra cure la ca).2 cm := by
  unfold applyExtra
  split
  · split
    · exact ⟨forall₂_modify_left _ _ hL
        (fun a b hab => LoanRel_applyExtraLoan extra hx hab), hC⟩
    · exact ⟨hL, forall₂_modify_left _ _ hC
        (fun a b hab => CardRel_applyExtraCard extra hx hab)⟩
    · exact ⟨hL, hC⟩
  · exact ⟨hL, hC⟩

/-- Coupled simulation: started from `LoanRel` / `CardRel`-related states with the
same month counter and no larger accumulated interest, the avalanche loop finishes no
later and with no more total interest than the minimum-payment loop — for every
budget, because minimum payments are always applied in full and the non-negative
extra only lowers one balance further. -/
theorem simOptGo_dominates (budget : ℚ) (cure : Bool)
    (la lm : List Loan) (ca cm : List Card) (months : ℕ) (tia tim : ℚ)
    (hL : List.Forall₂ LoanRel la lm) (hC : List.Forall₂ CardRel ca cm)
    (hti : tia ≤ tim) :
    (simOptGo budget cure la ca months tia).1 ≤ (simMinGo lm cm months tim).1 ∧
      (simOptGo budget cure la ca months tia).2 ≤ (simMinGo lm cm months tim).2 := by
  by_cases hga : simDone la ca = true ∨ 1000 ≤ months
  · rw [simOptGo, dif_pos hga]
    have hge := simMinGo_ge lm cm months tim (MinvLoans_of_forall₂ hL)
      (MinvCards_of_forall₂ hC)
    exact ⟨hge.1, le_trans hti hge.2⟩
  · have hgm : ¬ (simDone lm cm = true ∨ 1000 ≤ months) := by
      intro hmm
      rcases hmm with hdm | hmo
      · exact hga (Or.inl (simDone_of_forall₂ hL hC hdm))
      · exact hga (Or.inr hmo)
    rw [simOptGo, dif_neg hga, simMinGo, dif_neg hgm]
    simp only []
    rw [optStepLoan_eq_minStepLoan, optStepCard_eq_minStepCard]
    have hx : (0 : ℚ) ≤ max 0 (budget - calculate_minimum_payments la ca) :=
      le_max_left 0 _
    have hstep := forall₂_applyExtra
      (max 0 (budget - calculate_minimum_payments la ca)) hx cure
      (forall₂_map_minStepLoan hL) (forall₂_map_minStepCard hC)
    have hti' : tia + loansInterest la + cardsInterest ca ≤
        tim + loansInterest lm + cardsInterest cm := by
      have h1 := loansInterest_mono hL
      have h2 := cardsInterest_mono hC
      linarith
    exact simOptGo_dominates budget cure _ _ _ _ (months + 1) _ _ hstep.1 hstep.2 hti'
  termination_by 1000 - months
  decreasing_by simp only [not_or, not_le] at hga; omega

/-- C2: on a valid customer snapshot (non-negative balances and rates, card minimum
percentages at most 100) the avalanche strategy dominates the minimum-payment
strategy: no more total interest and no more months, for the same starting instrument
set.  The theorem holds for every derived budget — in particular whenever the budget
covers every month's minimum payments, as the claim assumes — because the avalanche
simulator always applies the full minimum payments and its extra payment is the
non-negative `max(0, budget − minimums)`. -/
theorem avalanche_dominates_minimum
    (income essential varPct : ℚ) (cure : Bool) (loans : List Loan)
    (cards : List Card)
    (hl : ∀ l ∈ loans, 0 ≤ l.principal ∧ 0 ≤ l.annual_rate_pct)
    (hc : ∀ c ∈ cards, 0 ≤ c.balance ∧ 0 ≤ c.annual_rate_pct ∧
      c.min_payment_pct ≤ 100) :
    (simulate_optimized_payments income essential varPct cure loans
        cards).total_interest ≤
      (simulate_minimum_payments loans cards).total_interest ∧
    (simulate_optimized_payments income essential varPct cure loans cards).months ≤
      (simulate_minimum_payments loans cards).months := by
  have hL : List.Forall₂ LoanRel loans loans :=
    List.forall₂_same.2 fun l hlm =>
      ⟨(hl l hlm).1, (hl l hlm).1, rfl, (hl l hlm).2, fun _ => ⟨le_rfl, rfl⟩⟩
  have hC : List.Forall₂ CardRel cards cards :=
    List.forall₂_same.2 fun c hcm =>
      ⟨(hc c hcm).1, (hc c hcm).1, rfl, (hc c hcm).2.1, rfl, (hc c hcm).2.2,
        fun _ => le_rfl⟩
  have h := simOptGo_dominates (derivedBudget income essential varPct) cure
    loans loans cards cards 0 0 0 hL hC le_rfl
  unfold simulate_optimized_payments simulate_minimum_payments
  simp only []
  exact ⟨h.2, h.1⟩

/-- Witness for `avalanche_dominates_minimum`: the spec's §8 end-to-end snapshot —
loan 18000 at 28.5 % over 36 months, card 3500 at 45 % with 5 % minimum, income 3500,
essential expenses 1800, variability 10 %. -/
theorem avalanche_dominates_minimum_witness :
    (simulate_optimized_payments 3500 1800 10 true [⟨18000, 57/2, 36, 0, "personal"⟩]
        [⟨3500, 45, 5, 0⟩]).total_interest ≤
      (simulate_minimum_payments [⟨18000, 57/2, 36, 0, "personal"⟩]
        [⟨3500, 45, 5, 0⟩]).total_interest ∧
    (simulate_optimized_payments 3500 1800 10 true [⟨18000, 57/2, 36, 0, "personal"⟩]
        [⟨3500, 45, 5, 0⟩]).months ≤
      (simulate_minimum_payments [⟨18000, 57/2, 36, 0, "personal"⟩]
        [⟨3500, 45, 5, 0⟩]).months :=
  avalanche_dominates_minimum 3500 1800 10 true [⟨18000, 57/2, 36, 0, "personal"⟩]
    [⟨3500, 45, 5, 0⟩] (by norm_num) (by norm_num)

end DebtEngine
